import Mathlib

set_option maxHeartbeats 1000000

/-!
Shallow embedding of the aspects JSON schema compiler and validator
(aspects/schema.go).  JSON documents and schema sources are modelled as an
inductive syntax tree; the raw-byte view that the Go code takes
(`json.RawMessage`) is modelled by an explicit encoder, so "byte-identical"
comparisons become equality of encoded strings.
-/

/-- JSON values.  Numeric literals are restricted to integer literals, which
covers every document and schema constraint exercised by the schema code
modelled here; `obj` keeps the source field order of the serialized object. -/
inductive JSON where
  | null : JSON
  | bool (b : Bool) : JSON
  | num (n : Int) : JSON
  | str (s : String) : JSON
  | arr (elems : List JSON) : JSON
  | obj (fields : List (String × JSON)) : JSON

/-- The string Go's `json.UnmarshalTypeError.Value` reports for a value of
this syntactic class (used in "expected X type but got Y" messages). -/
def jsonTypeName : JSON → String
  | .null => "null"
  | .bool _ => "bool"
  | .num _ => "number"
  | .str _ => "string"
  | .arr _ => "array"
  | .obj _ => "object"

def escapeChar (c : Char) : String :=
  if c = '"' then "\\\"" else if c = '\\' then "\\\\" else String.singleton c

def escapeString (s : String) : String :=
  String.join (s.toList.map escapeChar)

def quoteString (s : String) : String :=
  "\"" ++ escapeString s ++ "\""

/-- Compact byte encoding of a JSON value: the `json.RawMessage` form of a
sub-document of a compactly encoded document, as compared byte-for-byte by
the `unique` check of `arraySchema.Validate`. -/
def encode : JSON → String
  | .null => "null"
  | .bool true => "true"
  | .bool false => "false"
  | .num n => toString n
  | .str s => quoteString s
  | .arr elems =>
      "[" ++ String.intercalate "," (elems.attach.map (fun e => encode e.1)) ++ "]"
  | .obj fields =>
      "\x7b" ++ String.intercalate ","
        (fields.attach.map (fun f =>
          match f with
          | ⟨(k, v), _⟩ => quoteString k ++ ":" ++ encode v)) ++ "\x7d"
decreasing_by
  · have h1 := List.sizeOf_lt_of_mem e.2
    simp at *
    omega
  · rename_i hmem
    have h1 := List.sizeOf_lt_of_mem hmem
    simp at *
    omega

/-- Modelled from the spec: `validUserType`, the named-type identifier grammar,
is declared outside the given sources (schema.go only references it).  The spec
fixes the grammar as `[a-z][a-z0-9-]*`, matched in full. -/
def validUserType (s : String) : Bool :=
  match s.toList with
  | [] => false
  | c :: rest =>
      ('a' ≤ c && c ≤ 'z') &&
        rest.all (fun d => ('a' ≤ d && d ≤ 'z') || d.isDigit || d == '-')

/-- Modelled from the spec: `validSubkey`, the fixed syntactic map-key grammar,
is declared outside the given sources (schema.go only references it from
`validMapKeys`).  The spec does not spell this grammar out ("a fixed syntactic
key grammar") and its examples use keys such as "A", "B", "C", "a": it is
modelled as a nonempty word of letters, digits and dashes. -/
def validSubkey (s : String) : Bool :=
  !s.toList.isEmpty && s.toList.all (fun c => c.isAlpha || c.isDigit || c == '-')

/-- Modelled from the spec: `strutil.ListContains` is declared outside the given
sources; by name and use it is plain list membership. -/
def strutilListContains (l : List String) (s : String) : Bool :=
  l.contains s

/-- Modelled from the spec: the `"pattern"` constraint delegates to the host
regular-expression engine (`regexp.Match`), whose dialect and match semantics
the spec leaves explicitly unspecified (§9); no claim depends on them.
Modelled as substring search, with the empty pattern matching everything. -/
def regexpMatch (pattern value : String) : Bool :=
  pattern.isEmpty || (value.splitOn pattern).length ≥ 2

/-- Compiled schema nodes: one constructor per Go schema struct, with the same
fields in source order (Go nil maps, slices and pointers become `Option`/`[]`;
a compiled `pattern` keeps its source text). -/
inductive SchemaNode where
  | mapSchema (entrySchemas : Option (List (String × SchemaNode)))
      (valueSchema : Option SchemaNode) (keySchema : Option SchemaNode)
      (requiredCombs : List (List String)) : SchemaNode
  | stringSchema (pattern : Option String) (choices : List String) : SchemaNode
  | intSchema (min max : Option Int) (choices : List Int) : SchemaNode
  | anySchema : SchemaNode
  | numberSchema (min max : Option Int) (choices : List Int) : SchemaNode
  | booleanSchema : SchemaNode
  | arraySchema (elementType : Option SchemaNode) (unique : Bool) : SchemaNode
  | userTypeRefParser (stringBased : Bool) (base : SchemaNode) : SchemaNode

/-- A path segment of a `ValidationError` (Go stores `string` and `int` values
in an `[]interface{}`). -/
inductive PathPart where
  | key (s : String) : PathPart
  | idx (i : Nat) : PathPart

/-- `ValidationError`: the structured validation failure (path plus cause). -/
structure ValidationError where
  Path : List PathPart
  Err : String

/-- `validationErrorFrom` / `validationErrorf`: an error with an empty path. -/
def validationErrorFrom (msg : String) : ValidationError :=
  ⟨[], msg⟩

/-- A composite node prepending its locator to a propagating error's path. -/
def prependPath (p : PathPart) (e : ValidationError) : ValidationError :=
  ⟨p :: e.Path, e.Err⟩

/-- The path-rendering loop of `ValidationError.Error`: dot-joined key segments
with bracketed numeric indices. -/
def pathToString (path : List PathPart) : String :=
  path.enum.foldl (fun sb ip =>
    match ip with
    | (i, .key s) => (if i > 0 then sb ++ "." else sb) ++ s
    | (_, .idx n) => sb ++ "[" ++ toString n ++ "]") ""

/-- `ValidationError.Error`: the rendered message. -/
def ValidationError.render (v : ValidationError) : String :=
  if v.Path.isEmpty then "cannot accept top level element: " ++ v.Err
  else "cannot accept element in \"" ++ pathToString v.Path ++ "\": " ++ v.Err

/-- `validMapKeys`: every key of the decoded object must satisfy the key
grammar. -/
def validMapKeys (fields : List (String × JSON)) : Except String Unit :=
  fields.forM (fun kv =>
    if validSubkey kv.1 then pure ()
    else throw ("key \"" ++ kv.1 ++ "\" doesn't conform to required format"))

/-- The required-combinations loop of `mapSchema.Validate`: final value of the
`missing` flag (reset for each alternative; the loop stops at the first fully
present alternative). -/
def requiredMissing (has : String → Bool) : List (List String) → Bool
  | [] => false
  | comb :: rest =>
      if comb.all has then false
      else
        match rest with
        | [] => true
        | _ :: _ => requiredMissing has rest

/-- The duplicate-detection loop of `arraySchema.Validate` under `unique`:
`valSet` holds the encoded forms already seen. -/
def findDup (valSet : List String) : List String → Bool
  | [] => false
  | v :: rest => if valSet.contains v then true else findDup (v :: valSet) rest

/-- `validateNumber`: shared choice/min/max checks of int and number schemas. -/
def validateNumber (num : Int) (choices : List Int) (min max : Option Int) :
    Except ValidationError Unit := do
  if choices.length ≠ 0 then
    if !(choices.contains num) then
      throw (validationErrorFrom (toString num ++ " is not one of the allowed choices"))
  match min with
  | some m =>
      if num < m then
        throw (validationErrorFrom
          (toString num ++ " is less than the allowed minimum " ++ toString m))
  | none => pure ()
  match max with
  | some m =>
      if num > m then
        throw (validationErrorFrom
          (toString num ++ " is greater than the allowed maximum " ++ toString m))
  | none => pure ()

/-- The `Validate` methods of the schema node types.  `fuel` bounds the
recursion depth (in Go it is bounded by the compiled schema's finite depth);
every claim proved below either holds for all fuel values or instantiates fuel
above the depth of the schema at hand. -/
def validate : Nat → SchemaNode → JSON → Except ValidationError Unit
  | 0, _, _ => throw (validationErrorFrom "recursion limit exceeded")
  | fuel + 1, s, raw =>
    match s with
    | .mapSchema entrySchemas valueSchema keySchema requiredCombs =>
      match raw with
      | .obj fields => do
        (validMapKeys fields).mapError validationErrorFrom
        (match entrySchemas with
         | some es =>
             fields.forM (fun kv =>
               if (List.lookup kv.1 es).isSome then pure ()
               else throw (validationErrorFrom
                 ("map contains unexpected key \"" ++ kv.1 ++ "\"")))
         | none => pure ())
        if requiredMissing (fun k => (List.lookup k fields).isSome) requiredCombs then
          throw (validationErrorFrom "cannot find required combinations of keys")
        match entrySchemas with
        | some es =>
            fields.forM (fun kv =>
              match List.lookup kv.1 es with
              | some validator =>
                  (validate fuel validator kv.2).mapError (prependPath (.key kv.1))
              | none => pure ())
        | none => do
            (match keySchema with
             | some ks => fields.forM (fun kv =>
                 (validate fuel ks (.str kv.1)).mapError (prependPath (.key kv.1)))
             | none => pure ())
            (match valueSchema with
             | some vs => fields.forM (fun kv =>
                 (validate fuel vs kv.2).mapError (prependPath (.key kv.1)))
             | none => pure ())
      | .null => throw (validationErrorFrom "cannot accept null value for \"map\" type")
      | other => throw (validationErrorFrom ("expected map type but got " ++ jsonTypeName other))
    | .stringSchema pattern choices =>
      match raw with
      | .str value => do
        if choices.length ≠ 0 && !(strutilListContains choices value) then
          throw (validationErrorFrom
            ("string \"" ++ value ++ "\" is not one of the allowed choices"))
        match pattern with
        | some p =>
            if !(regexpMatch p value) then
              throw (validationErrorFrom
                ("string \"" ++ value ++ "\" doesn't match schema pattern " ++ p))
            else pure ()
        | none => pure ()
      | .null => throw (validationErrorFrom "cannot accept null value for \"string\" type")
      | other => throw (validationErrorFrom ("expected string type but got " ++ jsonTypeName other))
    | .intSchema min max choices =>
      match raw with
      | .num n => validateNumber n choices min max
      | .null => throw (validationErrorFrom "cannot accept null value for \"int\" type")
      | other => throw (validationErrorFrom ("expected int type but got " ++ jsonTypeName other))
    | .anySchema =>
      match raw with
      | .null => throw (validationErrorFrom "cannot accept null value for \"any\" type")
      | _ => pure ()
    | .numberSchema min max choices =>
      match raw with
      | .num n => validateNumber n choices min max
      | .null => throw (validationErrorFrom "cannot accept null value for \"number\" type")
      | other => throw (validationErrorFrom ("expected number type but got " ++ jsonTypeName other))
    | .booleanSchema =>
      match raw with
      | .bool _ => pure ()
      | .null => throw (validationErrorFrom "cannot accept null value for \"bool\" type")
      | other => throw (validationErrorFrom ("expected bool type but got " ++ jsonTypeName other))
    | .arraySchema elementType unique =>
      match raw with
      | .arr elems => do
        elems.enum.forM (fun iv =>
          match elementType with
          | some t => (validate fuel t iv.2).mapError (prependPath (.idx iv.1))
          | none => throw (validationErrorFrom "internal error: array schema with no element type"))
        if unique then
          if findDup [] (elems.map encode) then
            throw (validationErrorFrom
              "cannot accept duplicate values for array with \"unique\" constraint")
          else pure ()
        else pure ()
      | .null => throw (validationErrorFrom "cannot accept null value for \"array\" type")
      | other => throw (validationErrorFrom ("expected array type but got " ++ jsonTypeName other))
    | .userTypeRefParser _ base => validate fuel base raw

/-- The user-defined types table: for each name, the string-based flag and the
compiled base node of its `userTypeRefParser` wrapper. -/
abbrev UserTypes := List (String × Bool × SchemaNode)

/-- `newUserTypeRefParser`: the wrapper records whether the wrapped parser is a
`stringSchema` (a run-time type probe in Go). -/
def newUserTypeRefParser (p : SchemaNode) : Bool × SchemaNode :=
  (match p with
   | .stringSchema _ _ => true
   | _ => false, p)

/-- `StorageSchema.getUserType`. -/
def getUserType (userTypes : UserTypes) (ref : String) :
    Except String (Bool × SchemaNode) :=
  match List.lookup ref userTypes with
  | some userType => pure userType
  | none => throw ("cannot find user-defined type \"" ++ ref ++ "\"")

/-- The `expectsConstraints` methods: only map and array must be defined by an
object with constraints; a user-type reference never carries constraints. -/
def expectsConstraints : SchemaNode → Bool
  | .mapSchema _ _ _ _ => true
  | .arraySchema _ _ => true
  | _ => false

/-- `StorageSchema.newTypeSchema`: a fresh zero-valued node for a declared type
name, or the user-type wrapper for a `$name` reference. -/
def newTypeSchema (userTypes : UserTypes) (typ : String) :
    Except String SchemaNode :=
  if typ = "map" then pure (.mapSchema none none none [])
  else if typ = "string" then pure (.stringSchema none [])
  else if typ = "int" then pure (.intSchema none none [])
  else if typ = "any" then pure .anySchema
  else if typ = "number" then pure (.numberSchema none none [])
  else if typ = "bool" then pure .booleanSchema
  else if typ = "array" then pure (.arraySchema none false)
  else
    match typ.toList with
    | '$' :: ref =>
        (getUserType userTypes (String.mk ref)).map
          (fun u => .userTypeRefParser u.1 u.2)
    | _ => throw ("cannot parse unknown type \"" ++ typ ++ "\"")

/-- `json.Unmarshal` into a Go `string`: null leaves the zero value in place. -/
def asString : JSON → Except String String
  | .str s => pure s
  | .null => pure ""
  | other => throw ("cannot unmarshal " ++ jsonTypeName other ++ " into Go value of type string")

/-- `json.Unmarshal` into a Go `int64`/`float64`: null leaves the zero value. -/
def asNum : JSON → Except String Int
  | .num n => pure n
  | .null => pure 0
  | other => throw ("cannot unmarshal " ++ jsonTypeName other ++ " into Go number value")

/-- `json.Unmarshal` into a Go `bool`: null leaves the zero value. -/
def asBool : JSON → Except String Bool
  | .bool b => pure b
  | .null => pure false
  | other => throw ("cannot unmarshal " ++ jsonTypeName other ++ " into Go value of type bool")

/-- `json.Unmarshal` into `[]string`: null decodes to a nil slice, and null
items leave the item's zero value. -/
def asStringList : JSON → Except String (List String)
  | .null => pure []
  | .arr xs => xs.mapM asString
  | other => throw ("cannot unmarshal " ++ jsonTypeName other ++ " into Go value of type []string")

/-- `json.Unmarshal` into `[]int64`/`[]float64`. -/
def asNumList : JSON → Except String (List Int)
  | .null => pure []
  | .arr xs => xs.mapM asNum
  | other => throw ("cannot unmarshal " ++ jsonTypeName other ++ " into Go number slice")

/-- `json.Unmarshal` into a `map[string]json.RawMessage`: null decodes to a nil
map, modelled as the empty field list. -/
def asObj : JSON → Except String (List (String × JSON))
  | .null => pure []
  | .obj fields => pure fields
  | other => throw ("cannot unmarshal " ++ jsonTypeName other ++ " into Go map value")

/-- Decoding attempt of `"required"` as `[][]string`; `none` is a type error. -/
def tryStringListList : JSON → Option (List (List String))
  | .null => some []
  | .arr xs => xs.mapM (fun x =>
      match x with
      | .null => some []
      | .arr ys => ys.mapM (fun y =>
          match y with
          | .str s => some s
          | .null => some ""
          | _ => none)
      | _ => none)
  | _ => none

/-- Decoding attempt of `"required"` as a flat `[]string`. -/
def tryStringList : JSON → Option (List String)
  | .null => some []
  | .arr xs => xs.mapM (fun x =>
      match x with
      | .str s => some s
      | .null => some ""
      | _ => none)
  | _ => none

/-- The `"required"` decoding of `mapSchema.parseConstraints`: a list of
alternative key-sets, or — after a type error — a single flat key list. -/
def parseRequiredCombs (raw : JSON) : Except String (List (List String)) :=
  match tryStringListList raw with
  | some requiredCombs => pure requiredCombs
  | none =>
      match tryStringList raw with
      | some required => pure [required]
      | none => throw "cannot parse map's \"required\" constraint"

/-- The `"choices"` handling of `stringSchema.parseConstraints`: starting from
the node's current choices (a user-type reference delegates constraint parsing
to its already populated wrapped node). -/
def parseChoicesString (choices0 : List String)
    (constraints : List (String × JSON)) : Except String (List String) :=
  match List.lookup "choices" constraints with
  | none => pure choices0
  | some rawChoices =>
      match asStringList rawChoices with
      | .error e => .error ("cannot parse \"choices\" constraint: " ++ e)
      | .ok choices =>
          if choices.length = 0 then
            .error "cannot have a \"choices\" constraint with an empty list"
          else pure choices

/-- The `"pattern"` handling of `stringSchema.parseConstraints`, given the
choices value left after the `"choices"` step.  `regexp.Compile` is modelled
as storing the pattern text. -/
def parsePatternString (pattern0 : Option String) (choices : List String)
    (constraints : List (String × JSON)) : Except String (Option String) :=
  match List.lookup "pattern" constraints with
  | none => pure pattern0
  | some rawPattern =>
      if choices ≠ [] then
        .error "cannot use \"choices\" and \"pattern\" constraints in same schema"
      else
        match asString rawPattern with
        | .error e => .error ("cannot parse \"pattern\" constraint: " ++ e)
        | .ok patt => pure (some patt)

/-- `stringSchema.parseConstraints`, threading the node state explicitly. -/
def parseConstraintsString (pattern0 : Option String) (choices0 : List String)
    (constraints : List (String × JSON)) : Except String SchemaNode :=
  match parseChoicesString choices0 constraints with
  | .error e => .error e
  | .ok choices =>
      match parsePatternString pattern0 choices constraints with
      | .error e => .error e
      | .ok pattern => pure (.stringSchema pattern choices)

/-- The `"choices"` handling of `intSchema.parseConstraints`. -/
def parseChoicesInt (choices0 : List Int)
    (constraints : List (String × JSON)) : Except String (List Int) :=
  match List.lookup "choices" constraints with
  | none => pure choices0
  | some rawChoices =>
      match asNumList rawChoices with
      | .error e => .error ("cannot parse \"choices\" constraint: " ++ e)
      | .ok choices =>
          if choices.length = 0 then
            .error "cannot have \"choices\" constraint with empty list"
          else pure choices

/-- The `"min"` handling of `intSchema.parseConstraints`, given the choices
value left after the `"choices"` step. -/
def parseMinInt (min0 : Option Int) (choices : List Int)
    (constraints : List (String × JSON)) : Except String (Option Int) :=
  match List.lookup "min" constraints with
  | none => pure min0
  | some rawMin =>
      if choices ≠ [] then
        .error "cannot have \"choices\" and \"min\" constraints"
      else
        match asNum rawMin with
        | .error e => .error ("cannot parse \"min\" constraint: " ++ e)
        | .ok m => pure (some m)

/-- The `"max"` handling of `intSchema.parseConstraints`. -/
def parseMaxInt (max0 : Option Int) (choices : List Int)
    (constraints : List (String × JSON)) : Except String (Option Int) :=
  match List.lookup "max" constraints with
  | none => pure max0
  | some rawMax =>
      if choices ≠ [] then
        .error "cannot have \"choices\" and \"max\" constraints"
      else
        match asNum rawMax with
        | .error e => .error ("cannot parse \"max\" constraint: " ++ e)
        | .ok m => pure (some m)

/-- `intSchema.parseConstraints`, threading node state. -/
def parseConstraintsInt (min0 max0 : Option Int) (choices0 : List Int)
    (constraints : List (String × JSON)) : Except String SchemaNode :=
  match parseChoicesInt choices0 constraints with
  | .error e => .error e
  | .ok choices =>
      match parseMinInt min0 choices constraints with
      | .error e => .error e
      | .ok min =>
          match parseMaxInt max0 choices constraints with
          | .error e => .error e
          | .ok max =>
              match min, max with
              | some mn, some mx =>
                  if mn > mx then
                    .error "cannot have \"min\" constraint with value greater than \"max\""
                  else pure (.intSchema min max choices)
              | _, _ => pure (.intSchema min max choices)

/-- `numberSchema.parseConstraints`, threading node state; the Go method
duplicates the int logic for float64 (modelled over the same integer
literals), so the same choices/min/max steps apply. -/
def parseConstraintsNumber (min0 max0 : Option Int) (choices0 : List Int)
    (constraints : List (String × JSON)) : Except String SchemaNode :=
  match parseChoicesInt choices0 constraints with
  | .error e => .error e
  | .ok choices =>
      match parseMinInt min0 choices constraints with
      | .error e => .error e
      | .ok min =>
          match parseMaxInt max0 choices constraints with
          | .error e => .error e
          | .ok max =>
              match min, max with
              | some mn, some mx =>
                  if mn > mx then
                    .error "cannot have \"min\" constraint with value greater than \"max\""
                  else pure (.numberSchema min max choices)
              | _, _ => pure (.numberSchema min max choices)

/-- `checkExclusiveMapConstraints`: mutually exclusive map constraints. -/
def checkExclusiveMapConstraints (obj : List (String × JSON)) :
    Except String Unit :=
  let has := fun k => (List.lookup k obj).isSome
  if has "required" && !has "schema" then
    throw "cannot use \"required\" without \"schema\" constraint"
  else if has "schema" && has "keys" then
    throw "cannot use \"schema\" and \"keys\" constraints simultaneously"
  else if has "schema" && has "values" then
    throw "cannot use \"schema\" and \"values\" constraints simultaneously"
  else pure ()

/-- `mapSchema.parseMapKeyType`: the `"keys"` constraint must resolve to a
string-based type; an object form defaults its `"type"` to string and may
only declare string. -/
def parseMapKeyType (userTypes : UserTypes) (raw : JSON) :
    Except String SchemaNode :=
  match raw with
  | .obj schemaDef => do
      (match List.lookup "type" schemaDef with
       | some rawType => do
           let typ ← asString rawType
           if typ ≠ "string" then
             throw ("must be based on string but got \"" ++ typ ++ "\"")
           else pure ()
       | none => pure ())
      parseConstraintsString none [] schemaDef
  | raw => do
      let typ ← asString raw
      if typ = "string" then pure (.stringSchema none [])
      else
        match typ.toList with
        | '$' :: ref => do
            let userType ← getUserType userTypes (String.mk ref)
            if !userType.1 then
              throw ("key type \"" ++ String.mk ref ++ "\" must be based on string")
            else pure (.userTypeRefParser userType.1 userType.2)
        | _ => throw ("keys must be based on string but got \"" ++ typ ++ "\"")

/-- Combined recursive compiler: `.inl raw` is `StorageSchema.parse(raw)`;
`.inr (v, constraints)` is `v.parseConstraints(constraints)` for the node
kinds whose constraint parsing recurses (map entries and array values, and the
user-type reference delegating to its wrapped node); the scalar nodes dispatch
to the standalone constraint parsers above.  `fuel` bounds the recursion
depth, which in Go equals the schema definition's finite nesting depth. -/
def parseCore (userTypes : UserTypes) :
    Nat → JSON ⊕ SchemaNode × List (String × JSON) → Except String SchemaNode
  | 0, _ => throw "cannot parse aspect schema: recursion limit exceeded"
  | fuel + 1, .inl raw =>
    match raw with
    | .obj schemaDef => do
        let typ ←
          match List.lookup "type" schemaDef with
          | none => pure "map"
          | some rawType =>
              (asString rawType).mapError
                (fun e => "cannot parse \"type\" constraint in type definition: " ++ e)
        let schema ← newTypeSchema userTypes typ
        parseCore userTypes fuel (.inr (schema, schemaDef))
    | .null => do
        -- json.Unmarshal of "null" yields a nil map without error: the type
        -- defaults to "map", constraint parsing is skipped, and the map's
        -- expectsConstraints rejects the definition.
        let schema ← newTypeSchema userTypes "map"
        if expectsConstraints schema then
          throw "cannot parse \"map\": must be schema definition with constraints"
        else pure schema
    | .str typ => do
        let schema ← newTypeSchema userTypes typ
        if expectsConstraints schema then
          throw ("cannot parse \"" ++ typ ++ "\": must be schema definition with constraints")
        else pure schema
    | _ => throw "cannot parse aspect schema: types constraint must be expressed as maps or strings"
  | fuel + 1, .inr (v, constraints) =>
    match v with
    | .mapSchema entrySchemas0 valueSchema0 keySchema0 requiredCombs0 => do
        (checkExclusiveMapConstraints constraints).mapError
          (fun e => "cannot parse map: " ++ e)
        match List.lookup "schema" constraints with
        | some rawEntries => do
            let entries ← (asObj rawEntries).mapError
              (fun e => "cannot parse map's \"schema\" constraint: " ++ e)
            (validMapKeys entries).mapError (fun e => "cannot parse map: " ++ e)
            let entrySchemas ← entries.mapM (fun kv => do
              let entrySchema ← parseCore userTypes fuel (.inl kv.2)
              pure (kv.1, entrySchema))
            match List.lookup "required" constraints with
            | none =>
                pure (.mapSchema (some entrySchemas) valueSchema0 keySchema0 requiredCombs0)
            | some rawRequired => do
                let requiredCombs ← parseRequiredCombs rawRequired
                requiredCombs.forM (fun requiredComb =>
                  requiredComb.forM (fun required =>
                    if (List.lookup required entrySchemas).isSome then pure ()
                    else throw ("cannot parse map's \"required\" constraint: required key \"" ++
                      required ++ "\" must have schema entry")))
                pure (.mapSchema (some entrySchemas) valueSchema0 keySchema0 requiredCombs)
        | none => do
            let keySchema ←
              match List.lookup "keys" constraints with
              | none => pure keySchema0
              | some rawKeyDef =>
                  ((parseMapKeyType userTypes rawKeyDef).map some).mapError
                    (fun e => "cannot parse \"keys\" constraint: " ++ e)
            let valueSchema ←
              match List.lookup "values" constraints with
              | none => pure valueSchema0
              | some rawValuesDef => (parseCore userTypes fuel (.inl rawValuesDef)).map some
            match entrySchemas0, keySchema, valueSchema with
            | none, none, none =>
                throw "cannot parse map: must have \"schema\" or \"keys\"/\"values\" constraint"
            | _, _, _ => pure (.mapSchema entrySchemas0 valueSchema keySchema requiredCombs0)
    | .stringSchema pattern0 choices0 => parseConstraintsString pattern0 choices0 constraints
    | .intSchema min0 max0 choices0 => parseConstraintsInt min0 max0 choices0 constraints
    | .numberSchema min0 max0 choices0 => parseConstraintsNumber min0 max0 choices0 constraints
    | .anySchema => pure .anySchema
    | .booleanSchema => pure .booleanSchema
    | .arraySchema _ unique0 => do
        match List.lookup "values" constraints with
        | none => throw "cannot parse \"array\": must have \"values\" constraint"
        | some rawValues => do
            let typ ← (parseCore userTypes fuel (.inl rawValues)).mapError
              (fun e => "cannot parse \"array\" values type: " ++ e)
            let unique ←
              match List.lookup "unique" constraints with
              | none => pure unique0
              | some rawUnique =>
                  (asBool rawUnique).mapError
                    (fun e => "cannot parse array's \"unique\" constraint: " ++ e)
            pure (.arraySchema (some typ) unique)
    | .userTypeRefParser stringBased base => do
        let base2 ← parseCore userTypes fuel (.inr (base, constraints))
        pure (.userTypeRefParser stringBased base2)

/-- `StorageSchema.parse`. -/
def parseType (userTypes : UserTypes) (fuel : Nat) (raw : JSON) :
    Except String SchemaNode :=
  parseCore userTypes fuel (.inl raw)

/-- A node's `parseConstraints`, dispatched through the parser interface. -/
def parseConstraintsOf (userTypes : UserTypes) (fuel : Nat) (v : SchemaNode)
    (constraints : List (String × JSON)) : Except String SchemaNode :=
  parseCore userTypes fuel (.inr (v, constraints))

/-- The user-type compilation loop of `ParseSchema`: named definitions are
compiled one at a time in the order given (Go ranges over the decoded map,
whose iteration order is unspecified), each compiled entry being added to the
table consulted by the definitions processed after it. -/
def parseUserTypes (fuel : Nat) (userTypes : UserTypes) :
    List (String × JSON) → Except String UserTypes
  | [] => pure userTypes
  | (userTypeName, typeDef) :: rest => do
      if !validUserType userTypeName then
        throw ("cannot parse user-defined type name \"" ++ userTypeName ++
          "\": must match [a-z][a-z0-9-]*")
      let userTypeSchema ← (parseType userTypes fuel typeDef).mapError
        (fun e => "cannot parse user-defined type \"" ++ userTypeName ++ "\": " ++ e)
      parseUserTypes fuel
        ((userTypeName, newUserTypeRefParser userTypeSchema) :: userTypes) rest

/-- `StorageSchema`: the compiled top-level node and the named-type table. -/
structure StorageSchema where
  topLevel : SchemaNode
  userTypes : UserTypes

/-- `StorageSchema.Validate` delegates to the top-level node. -/
def StorageSchema.Validate (fuel : Nat) (s : StorageSchema) (raw : JSON) :
    Except ValidationError Unit :=
  validate fuel s.topLevel raw

/-- The field list of the top-level `"types"` object, in source order. -/
def typesFields : JSON → List (String × JSON)
  | .obj fields =>
      match List.lookup "types" fields with
      | some (.obj userTypes) => userTypes
      | _ => []
  | _ => []

/-- `ParseSchema`, processing the `"types"` entries in the order given by
`typeOrder`.  Go ranges over a `map[string]json.RawMessage` here, whose
iteration order is unspecified (the source notes that the decoded map "will
not preserve any order"), so the processing order is an explicit parameter;
callers pass a permutation of `typesFields raw`. -/
def ParseSchemaWith (fuel : Nat) (typeOrder : List (String × JSON)) (raw : JSON) :
    Except String StorageSchema :=
  match raw with
  | .obj schemaDef => do
      (match List.lookup "type" schemaDef with
       | none => pure ()
       | some rawType => do
           let typ ← (asString rawType).mapError
             (fun e => "cannot parse top level schema's \"type\" entry: " ++ e)
           if typ ≠ "map" then
             throw ("cannot parse top level schema: unexpected declared type \"" ++ typ ++
               "\", should be \"map\" or omitted")
           else pure ())
      if (List.lookup "schema" schemaDef).isNone then
        throw "cannot parse top level schema: must have a \"schema\" constraint"
      let userTypes ←
        match List.lookup "types" schemaDef with
        | none => pure []
        | some val =>
            match val with
            | .obj _ => parseUserTypes fuel [] typeOrder
            | .null => pure []
            | other =>
                throw ("cannot parse user-defined types map: cannot unmarshal " ++
                  jsonTypeName other)
      let topLevel ← parseType userTypes fuel raw
      pure ⟨topLevel, userTypes⟩
  | .null => throw "cannot parse top level schema: must have a \"schema\" constraint"
  | other => throw ("cannot parse top level schema as map: cannot unmarshal " ++ jsonTypeName other)

/-- `ParseSchema`, with the types table processed in source order (one
admissible iteration order of the Go map). -/
def ParseSchema (fuel : Nat) (raw : JSON) : Except String StorageSchema :=
  ParseSchemaWith fuel (typesFields raw) raw

/-! Shared lemmas about the embedded operations. -/

theorem exceptMapErrorPure {ε ε' : Type} (f : ε → ε') :
    Except.mapError f (pure () : Except ε Unit) = pure () := rfl

theorem forM_eq_pure {α ε : Type} {l : List α} {f : α → Except ε Unit}
    (h : ∀ x ∈ l, f x = pure ()) : l.forM f = pure () := by
  induction l with
  | nil => rfl
  | cons a as ih =>
      have ha := h a (by simp)
      have htl := ih (fun x hx => h x (by simp [hx]))
      simp only [List.forM, ha, htl]
      rfl

theorem forM_eq_error {α ε : Type} {l1 : List α} {v : α} (l2 : List α)
    {f : α → Except ε Unit} {e : ε}
    (h1 : ∀ x ∈ l1, f x = pure ()) (h2 : f v = .error e) :
    (l1 ++ v :: l2).forM f = .error e := by
  induction l1 with
  | nil =>
      simp only [List.nil_append, List.forM, h2]
      rfl
  | cons a as ih =>
      have ha := h1 a (by simp)
      have htl := ih (fun x hx => h1 x (by simp [hx]))
      simp only [List.cons_append, List.forM, List.append_eq, ha, htl]
      rfl

theorem snd_mem_of_mem_enumFrom {α : Type} {p : Nat × α} :
    ∀ {n : Nat} {l : List α}, p ∈ l.enumFrom n → p.2 ∈ l := by
  intro n l
  induction l generalizing n with
  | nil => simp [List.enumFrom]
  | cons a as ih =>
      intro h
      rw [List.enumFrom] at h
      rcases List.mem_cons.1 h with h1 | h1
      · subst h1; simp
      · exact List.mem_cons.2 (Or.inr (ih h1))

theorem mem_keys_of_lookup_isSome {β : Type} {r : String} {l : List (String × β)}
    (h : (List.lookup r l).isSome) : r ∈ l.map Prod.fst := by
  induction l with
  | nil => simp [List.lookup] at h
  | cons p ps ih =>
      cases p with
      | mk k b =>
          cases hbeq : r == k with
          | true =>
              have hrk : r = k := by simpa using hbeq
              simp [hrk]
          | false =>
              simp only [List.lookup, hbeq] at h
              exact List.mem_cons.2 (Or.inr (ih h))

theorem lookup_eq_none_of_not_mem_keys {β : Type} {r : String} {l : List (String × β)}
    (h : r ∉ l.map Prod.fst) : List.lookup r l = none := by
  cases hl : List.lookup r l with
  | none => rfl
  | some b => exact absurd (mem_keys_of_lookup_isSome (by simp [hl])) h

theorem findDup_spec (l : List String) :
    ∀ valSet : List String,
      findDup valSet l = true ↔ (∃ x ∈ l, x ∈ valSet) ∨ ¬ l.Nodup := by
  induction l with
  | nil => intro valSet; simp [findDup]
  | cons v rest ih =>
      intro valSet
      rw [findDup]
      by_cases hv : valSet.contains v
      · have hv2 : v ∈ valSet := by simpa [List.elem_iff] using hv
        simp only [hv, if_pos]
        constructor
        · intro _
          exact Or.inl ⟨v, by simp, hv2⟩
        · intro _; trivial
      · have hv2 : v ∉ valSet := fun hmem => hv (by simpa [List.elem_iff] using hmem)
        rw [if_neg (by simpa using hv), ih (v :: valSet)]
        constructor
        · rintro (⟨x, hx, hxs⟩ | hnd)
          · rcases List.mem_cons.1 hxs with h1 | h1
            · subst h1
              exact Or.inr (by simp [List.nodup_cons, hx])
            · exact Or.inl ⟨x, by simp [hx], h1⟩
          · exact Or.inr (by simp [List.nodup_cons]; intro _; exact hnd)
        · rintro (⟨x, hx, hxs⟩ | hnd)
          · rcases List.mem_cons.1 hx with h1 | h1
            · subst h1; exact absurd hxs hv2
            · exact Or.inl ⟨x, h1, by simp [hxs]⟩
          · rw [List.nodup_cons] at hnd
            push_neg at hnd
            by_cases hvr : v ∈ rest
            · exact Or.inl ⟨v, hvr, by simp⟩
            · exact Or.inr (hnd hvr)

theorem findDup_nil_iff (l : List String) :
    findDup [] l = true ↔ ¬ l.Nodup := by
  rw [findDup_spec l []]
  simp

theorem not_nodup_iff_exists_get {α : Type} (l : List α) :
    ¬ l.Nodup ↔ ∃ i j : Fin l.length, i.val < j.val ∧ l.get i = l.get j := by
  rw [List.nodup_iff_injective_get]
  constructor
  · intro h
    rw [Function.not_injective_iff] at h
    rcases h with ⟨i, j, hget, hne⟩
    rcases Nat.lt_trichotomy i.val j.val with hlt | heq | hgt
    · exact ⟨i, j, hlt, hget⟩
    · exact absurd (Fin.ext heq) hne
    · exact ⟨j, i, hgt, hget.symm⟩
  · rintro ⟨i, j, hlt, hget⟩ hinj
    have := hinj hget
    subst this
    exact Nat.lt_irrefl _ hlt

theorem requiredMissing_cons (has : String → Bool) (comb : List String)
    (rest : List (List String)) :
    requiredMissing has (comb :: rest) =
      if comb.all has then false
      else
        match rest with
        | [] => true
        | _ :: _ => requiredMissing has rest := rfl

theorem requiredMissing_false_iff (has : String → Bool) :
    ∀ combs : List (List String),
      requiredMissing has combs = false ↔
        (combs = [] ∨ ∃ comb ∈ combs, ∀ k ∈ comb, has k = true) := by
  intro combs
  induction combs with
  | nil => simp [requiredMissing]
  | cons comb rest ih =>
      rw [requiredMissing_cons]
      by_cases hall : comb.all has
      · rw [if_pos hall]
        simp only [List.all_eq_true] at hall
        constructor
        · intro _
          exact Or.inr ⟨comb, by simp, hall⟩
        · intro _; rfl
      · rw [if_neg hall]
        cases rest with
        | nil =>
            simp only [List.all_eq_true] at hall
            constructor
            · intro h; cases h
            · rintro (h | ⟨c, hc, hck⟩)
              · cases h
              · rcases List.mem_cons.1 hc with h1 | h1
                · subst h1; exact absurd hck hall
                · cases h1
        | cons c2 rest2 =>
            rw [ih]
            simp only [List.all_eq_true] at hall
            constructor
            · rintro (h | ⟨c, hc, hck⟩)
              · cases h
              · exact Or.inr ⟨c, by simp [hc], hck⟩
            · rintro (h | ⟨c, hc, hck⟩)
              · cases h
              · rcases List.mem_cons.1 hc with h1 | h1
                · subst h1; exact absurd hck hall
                · exact Or.inr ⟨c, h1, hck⟩

theorem getUserType_found {userTypes : UserTypes} {r : String} {u : Bool × SchemaNode}
    (h : List.lookup r userTypes = some u) : getUserType userTypes r = pure u := by
  unfold getUserType
  rw [h]

theorem getUserType_notFound {userTypes : UserTypes} {r : String}
    (h : List.lookup r userTypes = none) :
    getUserType userTypes r = .error ("cannot find user-defined type \"" ++ r ++ "\"") := by
  unfold getUserType
  rw [h]
  rfl

theorem newTypeSchema_ref (userTypes : UserTypes) (r : String) :
    newTypeSchema userTypes ("$" ++ r) =
      (getUserType userTypes r).map (fun u => SchemaNode.userTypeRefParser u.1 u.2) := by
  have hne : ∀ s : String, ("$" ++ r).data ≠ s.data → "$" ++ r ≠ s := by
    intro s hs h
    exact hs (congrArg String.data h)
  have hd : ("$" ++ r).data = '$' :: r.data := by simp [String.data_append]
  have h1 : "$" ++ r ≠ "map" := hne _ (by rw [hd]; simp)
  have h2 : "$" ++ r ≠ "string" := hne _ (by rw [hd]; simp)
  have h3 : "$" ++ r ≠ "int" := hne _ (by rw [hd]; simp)
  have h4 : "$" ++ r ≠ "any" := hne _ (by rw [hd]; simp)
  have h5 : "$" ++ r ≠ "number" := hne _ (by rw [hd]; simp)
  have h6 : "$" ++ r ≠ "bool" := hne _ (by rw [hd]; simp)
  have h7 : "$" ++ r ≠ "array" := hne _ (by rw [hd]; simp)
  unfold newTypeSchema
  rw [if_neg h1, if_neg h2, if_neg h3, if_neg h4, if_neg h5, if_neg h6, if_neg h7]
  have ht : ("$" ++ r).toList = '$' :: r.toList := hd
  rw [ht]
  rfl

theorem parseUserTypes_cons (fuel : Nat) (userTypes : UserTypes) (name : String)
    (typeDef : JSON) (rest : List (String × JSON)) :
    parseUserTypes fuel userTypes ((name, typeDef) :: rest) =
      if !validUserType name then
        .error ("cannot parse user-defined type name \"" ++ name ++
          "\": must match [a-z][a-z0-9-]*")
      else
        match parseType userTypes fuel typeDef with
        | .error e => .error ("cannot parse user-defined type \"" ++ name ++ "\": " ++ e)
        | .ok userTypeSchema =>
            parseUserTypes fuel
              ((name, newUserTypeRefParser userTypeSchema) :: userTypes) rest := by
  cases hv : validUserType name with
  | false =>
      simp only [parseUserTypes, hv]
      rfl
  | true =>
      cases hp : parseType userTypes fuel typeDef with
      | error e =>
          simp only [parseUserTypes, hv, hp, Except.mapError]
          rfl
      | ok s =>
          simp only [parseUserTypes, hv, hp, Except.mapError]
          rfl

theorem parseUserTypes_append (fuel : Nat) (l1 l2 : List (String × JSON)) :
    ∀ userTypes : UserTypes,
      parseUserTypes fuel userTypes (l1 ++ l2) =
        (parseUserTypes fuel userTypes l1).bind
          (fun tbl2 => parseUserTypes fuel tbl2 l2) := by
  induction l1 with
  | nil => intro tbl; rfl
  | cons p rest ih =>
      intro tbl
      cases p with
      | mk name typeDef =>
          rw [List.cons_append, parseUserTypes_cons, parseUserTypes_cons]
          cases hv : validUserType name with
          | false => rfl
          | true =>
              cases hp : parseType tbl fuel typeDef with
              | error e => rfl
              | ok s => simp only [Bool.not_true, Bool.false_eq_true, if_false, ih]

theorem parseUserTypes_lookup (fuel : Nat) :
    ∀ (entries : List (String × JSON)) (userTypes tbl2 : UserTypes),
      parseUserTypes fuel userTypes entries = .ok tbl2 →
      ∀ r, (List.lookup r tbl2).isSome = true →
        (List.lookup r userTypes).isSome = true ∨ r ∈ entries.map Prod.fst := by
  intro entries
  induction entries with
  | nil =>
      intro tbl tbl2 h r hr
      rw [parseUserTypes] at h
      injection h with h2
      subst h2
      exact Or.inl hr
  | cons p rest ih =>
      intro tbl tbl2 h r hr
      cases p with
      | mk name typeDef =>
          rw [parseUserTypes_cons] at h
          cases hv : validUserType name with
          | false => rw [hv] at h; simp at h
          | true =>
              rw [hv] at h
              simp only [Bool.not_true, Bool.false_eq_true, if_false] at h
              cases hp : parseType tbl fuel typeDef with
              | error e => rw [hp] at h; simp at h
              | ok s =>
                  rw [hp] at h
                  rcases ih _ _ h r hr with hin | hin
                  · cases hbeq : r == name with
                    | true =>
                        have : r = name := by simpa using hbeq
                        exact Or.inr (by simp [this])
                    | false =>
                        simp only [List.lookup, hbeq] at hin
                        exact Or.inl hin
                  · exact Or.inr (by simp [hin])

theorem validate_map_required_error (fuel : Nat) (es : List (String × SchemaNode))
    (vs ks : Option SchemaNode) (combs : List (List String))
    (fields : List (String × JSON))
    (hkeys : ∀ kv ∈ fields, validSubkey kv.1 = true)
    (hexp : ∀ kv ∈ fields, (List.lookup kv.1 es).isSome = true)
    (hmiss : requiredMissing (fun k => (List.lookup k fields).isSome) combs = true) :
    validate (fuel + 1) (.mapSchema (some es) vs ks combs) (.obj fields) =
      .error ⟨[], "cannot find required combinations of keys"⟩ := by
  have h1 : validMapKeys fields = pure () :=
    forM_eq_pure (fun kv hkv => by simp [hkeys kv hkv])
  have h2 : fields.forM (fun kv =>
      (if (List.lookup kv.1 es).isSome then pure ()
       else throw (validationErrorFrom
         ("map contains unexpected key \"" ++ kv.1 ++ "\"")) :
        Except ValidationError Unit)) = pure () :=
    forM_eq_pure (fun kv hkv => by simp [hexp kv hkv])
  simp only [validate, h1, exceptMapErrorPure, pure_bind, h2, hmiss, if_true]
  rfl

/-- C7: for every compiled node of every variant, `Validate` applied to the
JSON document `null` fails; null is never accepted by any declared type. -/
theorem C7_null_never_valid (fuel : Nat) (s : SchemaNode) :
    (validate fuel s .null).isOk = false := by
  induction fuel generalizing s with
  | zero => rfl
  | succ n ih =>
      cases s with
      | mapSchema a b c d => rfl
      | stringSchema a b => rfl
      | intSchema a b c => rfl
      | anySchema => rfl
      | numberSchema a b c => rfl
      | booleanSchema => rfl
      | arraySchema a b => rfl
      | userTypeRefParser sb base => exact ih base

def c3raw : JSON :=
  .obj [("schema", .obj [("A", .str "any"), ("B", .str "any"), ("C", .str "any")]),
        ("required", .arr [.arr [.str "A"], .arr [.str "B", .str "C"]])]

def c3compiled : StorageSchema :=
  (ParseSchema 10 c3raw).toOption.getD ⟨.anySchema, []⟩

/-- C3: for a map in the exact-schema shape, the required-keys check succeeds
iff at least one key-set in `requiredCombs` is fully present (empty or absent
`requiredCombs` imposes no requirement); a document passing the earlier key
checks fails with the required-keys error when every alternative is missing a
key; and `requiredCombs = [["A"], ["B","C"]]` accepts the documents with A or
with B and C and rejects the one with only B and the empty one. -/
theorem C3_requiredCombs :
    (∀ (has : String → Bool) (combs : List (List String)),
        requiredMissing has combs = false ↔
          (combs = [] ∨ ∃ comb ∈ combs, ∀ k ∈ comb, has k = true))
    ∧ (∀ (fuel : Nat) (es : List (String × SchemaNode)) (vs ks : Option SchemaNode)
         (combs : List (List String)) (fields : List (String × JSON)),
        (∀ kv ∈ fields, validSubkey kv.1 = true) →
        (∀ kv ∈ fields, (List.lookup kv.1 es).isSome = true) →
        requiredMissing (fun k => (List.lookup k fields).isSome) combs = true →
        validate (fuel + 1) (.mapSchema (some es) vs ks combs) (.obj fields) =
          .error ⟨[], "cannot find required combinations of keys"⟩)
    ∧ (ParseSchema 10 c3raw).isOk = true
    ∧ c3compiled.Validate 5 (.obj [("A", .num 1)]) = pure ()
    ∧ c3compiled.Validate 5 (.obj [("B", .num 1), ("C", .num 1)]) = pure ()
    ∧ c3compiled.Validate 5 (.obj [("B", .num 1)]) =
        .error ⟨[], "cannot find required combinations of keys"⟩
    ∧ c3compiled.Validate 5 (.obj []) =
        .error ⟨[], "cannot find required combinations of keys"⟩ :=
  ⟨requiredMissing_false_iff, validate_map_required_error, rfl, rfl, rfl, rfl, rfl⟩

theorem C3_requiredCombs_witness :
    validate 3 (.mapSchema (some [("A", .anySchema), ("B", .anySchema), ("C", .anySchema)])
        none none [["A"], ["B", "C"]]) (.obj [("B", .num 1)]) =
      .error ⟨[], "cannot find required combinations of keys"⟩ :=
  C3_requiredCombs.2.1 2 [("A", .anySchema), ("B", .anySchema), ("C", .anySchema)]
    none none [["A"], ["B", "C"]] [("B", .num 1)]
    (by decide) (by decide) (by decide)

def c9raw : JSON :=
  .obj [("schema", .obj [("a", .str "any")]),
        ("required", .arr [.arr [.str "a"], .arr []])]

def c9compiled : StorageSchema :=
  (ParseSchema 10 c9raw).toOption.getD ⟨.anySchema, []⟩

/-- C9: a `required` constraint containing an empty alternative key-set
compiles, and the required-keys check then passes for every document (the
empty alternative is vacuously satisfied), including the empty object. -/
theorem C9_empty_required_comb :
    (ParseSchema 10 c9raw).isOk = true
    ∧ c9compiled.topLevel =
        .mapSchema (some [("a", .anySchema)]) none none [["a"], []]
    ∧ (∀ (has : String → Bool) (combs : List (List String)),
        [] ∈ combs → requiredMissing has combs = false)
    ∧ c9compiled.Validate 5 (.obj []) = pure ()
    ∧ c9compiled.Validate 5 (.obj [("a", .num 1)]) = pure () :=
  ⟨rfl, rfl,
   fun has combs hmem => (requiredMissing_false_iff has combs).2 (Or.inr ⟨[], hmem, by simp⟩),
   rfl, rfl⟩

theorem C9_empty_required_comb_witness :
    requiredMissing (fun _ => false) [["a"], []] = false :=
  C9_empty_required_comb.2.2.1 (fun _ => false) [["a"], []] (by simp)

theorem exceptMapErrorOk {ε ε' α : Type} (f : ε → ε') (a : α) :
    Except.mapError f (Except.ok a : Except ε α) = .ok a := rfl

theorem exceptMapErrorError {ε ε' α : Type} (f : ε → ε') (e : ε) :
    Except.mapError f (Except.error e : Except ε α) = .error (f e) := rfl

theorem exceptBindOk {ε α β : Type} (a : α) (f : α → Except ε β) :
    (Except.ok a : Except ε α) >>= f = f a := rfl

theorem exceptBindError {ε α β : Type} (e : ε) (f : α → Except ε β) :
    (Except.error e : Except ε α) >>= f = .error e := rfl

theorem parseChoicesInt_ne_nil {choices0 : List Int} {constraints : List (String × JSON)}
    {l : List Int}
    (h1 : (List.lookup "choices" constraints).isSome = true)
    (h : parseChoicesInt choices0 constraints = .ok l) : l ≠ [] := by
  rcases Option.isSome_iff_exists.1 h1 with ⟨cj, hc⟩
  simp only [parseChoicesInt, hc] at h
  cases hA : asNumList cj with
  | error e =>
      simp only [hA] at h
      exact Except.noConfusion h
  | ok l2 =>
      simp only [hA] at h
      by_cases hlen : l2.length = 0
      · rw [if_pos hlen] at h
        exact Except.noConfusion h
      · rw [if_neg hlen] at h
        injection h with h2
        subst h2
        exact fun hnil => hlen (by simp [hnil])

theorem parseChoicesString_ne_nil {choices0 : List String} {constraints : List (String × JSON)}
    {l : List String}
    (h1 : (List.lookup "choices" constraints).isSome = true)
    (h : parseChoicesString choices0 constraints = .ok l) : l ≠ [] := by
  rcases Option.isSome_iff_exists.1 h1 with ⟨cj, hc⟩
  simp only [parseChoicesString, hc] at h
  cases hA : asStringList cj with
  | error e =>
      simp only [hA] at h
      exact Except.noConfusion h
  | ok l2 =>
      simp only [hA] at h
      by_cases hlen : l2.length = 0
      · rw [if_pos hlen] at h
        exact Except.noConfusion h
      · rw [if_neg hlen] at h
        injection h with h2
        subst h2
        exact fun hnil => hlen (by simp [hnil])

theorem intPC_choices_min_conflict {min0 max0 : Option Int} {choices0 : List Int}
    {constraints : List (String × JSON)}
    (h1 : (List.lookup "choices" constraints).isSome = true)
    (h2 : (List.lookup "min" constraints).isSome = true) :
    (parseConstraintsInt min0 max0 choices0 constraints).isOk = false := by
  rcases Option.isSome_iff_exists.1 h2 with ⟨mj, hm⟩
  cases hch : parseChoicesInt choices0 constraints with
  | error e =>
      simp only [parseConstraintsInt, hch]
      rfl
  | ok l =>
      have hne := parseChoicesInt_ne_nil h1 hch
      have hmin : parseMinInt min0 l constraints =
          .error "cannot have \"choices\" and \"min\" constraints" := by
        simp only [parseMinInt, hm]
        rw [if_pos hne]
      simp only [parseConstraintsInt, hch, hmin]
      rfl

theorem exceptMapErrorPureVal {ε ε' α : Type} (f : ε → ε') (a : α) :
    Except.mapError f (pure a : Except ε α) = pure a := rfl

theorem intPC_choices_max_conflict {min0 max0 : Option Int} {choices0 : List Int}
    {constraints : List (String × JSON)}
    (h1 : (List.lookup "choices" constraints).isSome = true)
    (h2 : (List.lookup "max" constraints).isSome = true) :
    (parseConstraintsInt min0 max0 choices0 constraints).isOk = false := by
  rcases Option.isSome_iff_exists.1 h2 with ⟨xj, hx⟩
  cases hch : parseChoicesInt choices0 constraints with
  | error e =>
      simp only [parseConstraintsInt, hch]
      rfl
  | ok l =>
      have hne := parseChoicesInt_ne_nil h1 hch
      have hmax : parseMaxInt max0 l constraints =
          .error "cannot have \"choices\" and \"max\" constraints" := by
        simp only [parseMaxInt, hx]
        rw [if_pos hne]
      cases hmin : parseMinInt min0 l constraints with
      | error e =>
          simp only [parseConstraintsInt, hch, hmin]
          rfl
      | ok mn =>
          simp only [parseConstraintsInt, hch, hmin, hmax]
          rfl

theorem stringPC_choices_pattern_conflict {pattern0 : Option String} {choices0 : List String}
    {constraints : List (String × JSON)}
    (h1 : (List.lookup "choices" constraints).isSome = true)
    (h2 : (List.lookup "pattern" constraints).isSome = true) :
    (parseConstraintsString pattern0 choices0 constraints).isOk = false := by
  rcases Option.isSome_iff_exists.1 h2 with ⟨pj, hp⟩
  cases hch : parseChoicesString choices0 constraints with
  | error e =>
      simp only [parseConstraintsString, hch]
      rfl
  | ok l =>
      have hne := parseChoicesString_ne_nil h1 hch
      have hpat : parsePatternString pattern0 l constraints =
          .error "cannot use \"choices\" and \"pattern\" constraints in same schema" := by
        simp only [parsePatternString, hp]
        rw [if_pos hne]
      simp only [parseConstraintsString, hch, hpat]
      rfl

theorem mapPC_schema_keys_conflict (userTypes : UserTypes) (fuel : Nat)
    {es : Option (List (String × SchemaNode))} {vs ks : Option SchemaNode}
    {rc : List (List String)} {constraints : List (String × JSON)}
    (h1 : (List.lookup "schema" constraints).isSome = true)
    (h2 : (List.lookup "keys" constraints).isSome = true) :
    (parseConstraintsOf userTypes fuel (.mapSchema es vs ks rc) constraints).isOk = false := by
  cases fuel with
  | zero => rfl
  | succ n =>
      have hex : checkExclusiveMapConstraints constraints =
          .error "cannot use \"schema\" and \"keys\" constraints simultaneously" := by
        simp [checkExclusiveMapConstraints, h1, h2]
        rfl
      simp only [parseConstraintsOf, parseCore, hex]
      rfl

theorem mapPC_schema_values_conflict (userTypes : UserTypes) (fuel : Nat)
    {es : Option (List (String × SchemaNode))} {vs ks : Option SchemaNode}
    {rc : List (List String)} {constraints : List (String × JSON)}
    (h1 : (List.lookup "schema" constraints).isSome = true)
    (h2 : (List.lookup "values" constraints).isSome = true)
    (h3 : (List.lookup "keys" constraints).isSome = false) :
    (parseConstraintsOf userTypes fuel (.mapSchema es vs ks rc) constraints).isOk = false := by
  cases fuel with
  | zero => rfl
  | succ n =>
      have hex : checkExclusiveMapConstraints constraints =
          .error "cannot use \"schema\" and \"values\" constraints simultaneously" := by
        simp [checkExclusiveMapConstraints, h1, h2, h3]
        rfl
      simp only [parseConstraintsOf, parseCore, hex]
      rfl

theorem mapPC_required_without_schema (userTypes : UserTypes) (fuel : Nat)
    {es : Option (List (String × SchemaNode))} {vs ks : Option SchemaNode}
    {rc : List (List String)} {constraints : List (String × JSON)}
    (h1 : (List.lookup "required" constraints).isSome = true)
    (h2 : List.lookup "schema" constraints = none) :
    (parseConstraintsOf userTypes fuel (.mapSchema es vs ks rc) constraints).isOk = false := by
  cases fuel with
  | zero => rfl
  | succ n =>
      have hex : checkExclusiveMapConstraints constraints =
          .error "cannot use \"required\" without \"schema\" constraint" := by
        simp [checkExclusiveMapConstraints, h1, h2]
        rfl
      simp only [parseConstraintsOf, parseCore, hex]
      rfl

theorem intPC_min_gt_max {min0 max0 : Option Int} {choices0 : List Int}
    {constraints : List (String × JSON)} {a b : Int}
    (hmin : List.lookup "min" constraints = some (.num a))
    (hmax : List.lookup "max" constraints = some (.num b))
    (hab : a > b) :
    (parseConstraintsInt min0 max0 choices0 constraints).isOk = false := by
  cases hch : parseChoicesInt choices0 constraints with
  | error e =>
      simp only [parseConstraintsInt, hch]
      rfl
  | ok l =>
      by_cases hl : l = []
      · subst hl
        have hmn : parseMinInt min0 [] constraints = .ok (some a) := by
          simp only [parseMinInt, hmin]
          rw [if_neg (by simp : ¬(([] : List Int) ≠ []))]
          rfl
        have hmx : parseMaxInt max0 [] constraints = .ok (some b) := by
          simp only [parseMaxInt, hmax]
          rw [if_neg (by simp : ¬(([] : List Int) ≠ []))]
          rfl
        simp only [parseConstraintsInt, hch, hmn, hmx]
        rw [if_pos hab]
        rfl
      · have hmn : parseMinInt min0 l constraints =
            .error "cannot have \"choices\" and \"min\" constraints" := by
          simp only [parseMinInt, hmin]
          rw [if_pos hl]
        simp only [parseConstraintsInt, hch, hmn]
        rfl

/-- C4: constraint parsing rejects — returning an error, so by the result type
no schema value at all — every co-occurrence of a mutually exclusive pair:
choices with min, choices with max, choices with pattern, schema with keys,
schema with values, required without schema; and min greater than max.  All of
these are compile-time failures of the parseConstraints stage. -/
theorem C4_exclusive_constraints :
    (∀ (min0 max0 : Option Int) (choices0 : List Int) (constraints : List (String × JSON)),
        (List.lookup "choices" constraints).isSome = true →
        (List.lookup "min" constraints).isSome = true →
        (parseConstraintsInt min0 max0 choices0 constraints).isOk = false)
    ∧ (∀ (min0 max0 : Option Int) (choices0 : List Int) (constraints : List (String × JSON)),
        (List.lookup "choices" constraints).isSome = true →
        (List.lookup "max" constraints).isSome = true →
        (parseConstraintsInt min0 max0 choices0 constraints).isOk = false)
    ∧ (∀ (pattern0 : Option String) (choices0 : List String) (constraints : List (String × JSON)),
        (List.lookup "choices" constraints).isSome = true →
        (List.lookup "pattern" constraints).isSome = true →
        (parseConstraintsString pattern0 choices0 constraints).isOk = false)
    ∧ (∀ (userTypes : UserTypes) (fuel : Nat) (es : Option (List (String × SchemaNode)))
         (vs ks : Option SchemaNode) (rc : List (List String))
         (constraints : List (String × JSON)),
        (List.lookup "schema" constraints).isSome = true →
        (List.lookup "keys" constraints).isSome = true →
        (parseConstraintsOf userTypes fuel (.mapSchema es vs ks rc) constraints).isOk = false)
    ∧ (∀ (userTypes : UserTypes) (fuel : Nat) (es : Option (List (String × SchemaNode)))
         (vs ks : Option SchemaNode) (rc : List (List String))
         (constraints : List (String × JSON)),
        (List.lookup "schema" constraints).isSome = true →
        (List.lookup "values" constraints).isSome = true →
        (parseConstraintsOf userTypes fuel (.mapSchema es vs ks rc) constraints).isOk = false)
    ∧ (∀ (userTypes : UserTypes) (fuel : Nat) (es : Option (List (String × SchemaNode)))
         (vs ks : Option SchemaNode) (rc : List (List String))
         (constraints : List (String × JSON)),
        (List.lookup "required" constraints).isSome = true →
        List.lookup "schema" constraints = none →
        (parseConstraintsOf userTypes fuel (.mapSchema es vs ks rc) constraints).isOk = false)
    ∧ (∀ (min0 max0 : Option Int) (choices0 : List Int) (constraints : List (String × JSON))
         (a b : Int),
        List.lookup "min" constraints = some (.num a) →
        List.lookup "max" constraints = some (.num b) →
        a > b →
        (parseConstraintsInt min0 max0 choices0 constraints).isOk = false)
    ∧ (parseConstraintsInt none none [] [("min", .num 5), ("max", .num 2)]).isOk = false :=
  ⟨fun _ _ _ _ h1 h2 => intPC_choices_min_conflict h1 h2,
   fun _ _ _ _ h1 h2 => intPC_choices_max_conflict h1 h2,
   fun _ _ _ h1 h2 => stringPC_choices_pattern_conflict h1 h2,
   fun tbl fuel _ _ _ _ _ h1 h2 => mapPC_schema_keys_conflict tbl fuel h1 h2,
   fun tbl fuel _ _ _ _ c h1 h2 => by
     cases hk : (List.lookup "keys" c).isSome with
     | true => exact mapPC_schema_keys_conflict tbl fuel h1 hk
     | false => exact mapPC_schema_values_conflict tbl fuel h1 h2 hk,
   fun tbl fuel _ _ _ _ _ h1 h2 => mapPC_required_without_schema tbl fuel h1 h2,
   fun _ _ _ _ _ _ hmin hmax hab => intPC_min_gt_max hmin hmax hab,
   rfl⟩

theorem C4_exclusive_constraints_witness :
    (parseConstraintsInt none none [] [("choices", .arr [.num 1]), ("min", .num 0)]).isOk = false
    ∧ (parseConstraintsInt none none [] [("choices", .arr [.num 1]), ("max", .num 0)]).isOk = false
    ∧ (parseConstraintsString none [] [("choices", .arr [.str "a"]), ("pattern", .str "b")]).isOk = false
    ∧ (parseConstraintsOf [] 5 (.mapSchema none none none [])
        [("schema", .obj []), ("keys", .str "string")]).isOk = false
    ∧ (parseConstraintsOf [] 5 (.mapSchema none none none [])
        [("schema", .obj []), ("values", .str "int")]).isOk = false
    ∧ (parseConstraintsOf [] 5 (.mapSchema none none none [])
        [("required", .arr [.str "a"])]).isOk = false
    ∧ (parseConstraintsInt none none [] [("min", .num 7), ("max", .num 3)]).isOk = false :=
  ⟨C4_exclusive_constraints.1 none none [] [("choices", .arr [.num 1]), ("min", .num 0)] rfl rfl,
   C4_exclusive_constraints.2.1 none none [] [("choices", .arr [.num 1]), ("max", .num 0)] rfl rfl,
   C4_exclusive_constraints.2.2.1 none [] [("choices", .arr [.str "a"]), ("pattern", .str "b")] rfl rfl,
   C4_exclusive_constraints.2.2.2.1 [] 5 none none none []
     [("schema", .obj []), ("keys", .str "string")] rfl rfl,
   C4_exclusive_constraints.2.2.2.2.1 [] 5 none none none []
     [("schema", .obj []), ("values", .str "int")] rfl rfl,
   C4_exclusive_constraints.2.2.2.2.2.1 [] 5 none none none []
     [("required", .arr [.str "a"])] rfl rfl,
   C4_exclusive_constraints.2.2.2.2.2.2.1 none none [] [("min", .num 7), ("max", .num 3)]
     7 3 rfl rfl (by norm_num)⟩

theorem exceptBindEqOk {ε α β : Type} {x : Except ε α} {f : α → Except ε β} {b : β}
    (h : x >>= f = .ok b) : ∃ a, x = .ok a ∧ f a = .ok b := by
  cases x with
  | error e => exact absurd h (by simp [exceptBindError])
  | ok a => exact ⟨a, rfl, by rw [← exceptBindOk a f]; exact h⟩

theorem parseMapKeyType_obj_noType (userTypes : UserTypes)
    {fields : List (String × JSON)} (h : List.lookup "type" fields = none) :
    parseMapKeyType userTypes (.obj fields) = parseConstraintsString none [] fields := by
  simp only [parseMapKeyType, h]
  rfl

theorem parseConstraintsString_shape {p0 : Option String} {c0 : List String}
    {fields : List (String × JSON)} {s : SchemaNode}
    (h : parseConstraintsString p0 c0 fields = .ok s) :
    ∃ pat ch, s = .stringSchema pat ch := by
  simp only [parseConstraintsString] at h
  cases hch : parseChoicesString c0 fields with
  | error e =>
      simp only [hch] at h
      exact Except.noConfusion h
  | ok choices =>
      simp only [hch] at h
      cases hp : parsePatternString p0 choices fields with
      | error e =>
          simp only [hp] at h
          exact Except.noConfusion h
      | ok pattern =>
          simp only [hp] at h
          injection h with h2
          exact ⟨pattern, choices, h2.symm⟩

theorem parseMapKeyType_obj_badType (userTypes : UserTypes)
    {fields : List (String × JSON)} {j : JSON}
    (h : List.lookup "type" fields = some j) (hj : j ≠ .str "string") :
    (parseMapKeyType userTypes (.obj fields)).isOk = false := by
  simp only [parseMapKeyType, h]
  cases j with
  | str t =>
      have ht : t ≠ "string" := fun he => hj (by rw [he])
      simp only [asString, pure_bind]
      rw [if_pos ht]
      rfl
  | null =>
      simp only [asString, pure_bind]
      rw [if_pos (by decide : ("" : String) ≠ "string")]
      rfl
  | num n => rfl
  | bool b => rfl
  | arr xs => rfl
  | obj fs => rfl

/-- C10: a `"keys"` constraint given as a JSON object defaults its `"type"` to
string (the result is compiled by the string-schema constraint parser, whose
successful results are always string nodes), and an object whose `"type"` is
anything other than `"string"` is a compile error; in particular a bare
pattern or choices object compiles as a string key schema. -/
theorem C10_keys_object_defaults_to_string :
    (∀ (userTypes : UserTypes) (fields : List (String × JSON)),
        List.lookup "type" fields = none →
        parseMapKeyType userTypes (.obj fields) = parseConstraintsString none [] fields)
    ∧ (∀ (p0 : Option String) (c0 : List String) (fields : List (String × JSON))
         (s : SchemaNode),
        parseConstraintsString p0 c0 fields = .ok s → ∃ pat ch, s = .stringSchema pat ch)
    ∧ (∀ (userTypes : UserTypes) (fields : List (String × JSON)) (j : JSON),
        List.lookup "type" fields = some j → j ≠ .str "string" →
        (parseMapKeyType userTypes (.obj fields)).isOk = false)
    ∧ parseMapKeyType [] (.obj [("pattern", .str "^a")]) = .ok (.stringSchema (some "^a") [])
    ∧ parseMapKeyType [] (.obj [("choices", .arr [.str "x"])]) = .ok (.stringSchema none ["x"])
    ∧ (parseMapKeyType [] (.obj [("type", .str "int")])).isOk = false
    ∧ parseMapKeyType [] (.obj [("type", .str "string"), ("pattern", .str "^a")]) =
        .ok (.stringSchema (some "^a") []) :=
  ⟨fun tbl _ h => parseMapKeyType_obj_noType tbl h,
   fun _ _ _ _ h => parseConstraintsString_shape h,
   fun tbl _ _ h hj => parseMapKeyType_obj_badType tbl h hj,
   rfl, rfl, rfl, rfl⟩

theorem C10_keys_object_defaults_to_string_witness :
    parseMapKeyType [] (.obj [("pattern", .str "x")]) = parseConstraintsString none [] [("pattern", .str "x")]
    ∧ (∃ pat ch, SchemaNode.stringSchema (some "x") [] = .stringSchema pat ch)
    ∧ (parseMapKeyType [] (.obj [("type", .num 3)])).isOk = false :=
  ⟨C10_keys_object_defaults_to_string.1 [] [("pattern", .str "x")] rfl,
   C10_keys_object_defaults_to_string.2.1 none [] [("pattern", .str "x")]
     (.stringSchema (some "x") []) rfl,
   C10_keys_object_defaults_to_string.2.2.1 [] [("type", .num 3)] (.num 3) rfl
     (fun h => by cases h)⟩

theorem parseMapKeyType_ref (userTypes : UserTypes) (r : String) :
    parseMapKeyType userTypes (.str ("$" ++ r)) =
      (do
        let userType ← getUserType userTypes r
        if !userType.1 then
          throw ("key type \"" ++ r ++ "\" must be based on string")
        else pure (.userTypeRefParser userType.1 userType.2)) := by
  have hne : ∀ s : String, ("$" ++ r).data ≠ s.data → "$" ++ r ≠ s := by
    intro s hs h
    exact hs (congrArg String.data h)
  have hd : ("$" ++ r).data = '$' :: r.data := by simp [String.data_append]
  have h2 : "$" ++ r ≠ "string" := hne _ (by rw [hd]; simp)
  have hstep : parseMapKeyType userTypes (.str ("$" ++ r)) =
      (do
        let typ ← asString (.str ("$" ++ r))
        if typ = "string" then pure (.stringSchema none [])
        else
          match typ.toList with
          | '$' :: ref => do
              let userType ← getUserType userTypes (String.mk ref)
              if !userType.1 then
                throw ("key type \"" ++ String.mk ref ++ "\" must be based on string")
              else pure (.userTypeRefParser userType.1 userType.2)
          | _ => throw ("keys must be based on string but got \"" ++ ("$" ++ r) ++ "\"")) := rfl
  rw [hstep]
  simp only [asString, pure_bind]
  rw [if_neg h2]
  have ht : ("$" ++ r).toList = '$' :: r.toList := hd
  rw [ht]
  rfl

theorem parseMapKeyType_userRef {userTypes : UserTypes} {r : String} {sb : Bool}
    {base : SchemaNode} (h : List.lookup r userTypes = some (sb, base)) :
    (parseMapKeyType userTypes (.str ("$" ++ r))).isOk = sb := by
  rw [parseMapKeyType_ref, getUserType_found h, pure_bind]
  cases sb with
  | true => rfl
  | false => rfl

def c6good : JSON :=
  .obj [("schema", .obj [("m", .obj [("keys", .str "$color")])]),
        ("types", .obj [("color", .obj [("type", .str "string"),
          ("choices", .arr [.str "red", .str "green"])])])]

def c6bad : JSON :=
  .obj [("schema", .obj [("m", .obj [("keys", .str "$color")])]),
        ("types", .obj [("color", .str "int")])]

/-- C6: a map's `"keys"` constraint naming a user type compiles exactly when
that user type is string-based; the string-based flag of a user-type wrapper
holds exactly for types defined as string schemas; the spec's color example
(string with choices) compiles as a key type and the int-based variant is a
compile error. -/
theorem C6_keys_user_type_string_based :
    (∀ (userTypes : UserTypes) (r : String) (sb : Bool) (base : SchemaNode),
        List.lookup r userTypes = some (sb, base) →
        (parseMapKeyType userTypes (.str ("$" ++ r))).isOk = sb)
    ∧ (∀ p : SchemaNode, (newUserTypeRefParser p).1 = true ↔ ∃ pat ch, p = .stringSchema pat ch)
    ∧ (ParseSchema 10 c6good).isOk = true
    ∧ (ParseSchema 10 c6bad).isOk = false :=
  ⟨fun _ _ _ _ h => parseMapKeyType_userRef h,
   fun p => by
     cases p with
     | stringSchema pat ch => exact ⟨fun _ => ⟨pat, ch, rfl⟩, fun _ => rfl⟩
     | mapSchema a b c d => simp [newUserTypeRefParser]
     | intSchema a b c => simp [newUserTypeRefParser]
     | anySchema => simp [newUserTypeRefParser]
     | numberSchema a b c => simp [newUserTypeRefParser]
     | booleanSchema => simp [newUserTypeRefParser]
     | arraySchema a b => simp [newUserTypeRefParser]
     | userTypeRefParser a b => simp [newUserTypeRefParser],
   rfl, rfl⟩

theorem C6_keys_user_type_string_based_witness :
    (parseMapKeyType [("color", (true, .stringSchema none ["red", "green"]))]
      (.str ("$" ++ "color"))).isOk = true :=
  C6_keys_user_type_string_based.1
    [("color", (true, .stringSchema none ["red", "green"]))] "color" true
    (.stringSchema none ["red", "green"]) rfl

theorem parseUserTypes_invalid_name (fuel : Nat) :
    ∀ (entries : List (String × JSON)) (userTypes : UserTypes)
      (name : String) (typeDef : JSON),
      (name, typeDef) ∈ entries → validUserType name = false →
      (parseUserTypes fuel userTypes entries).isOk = false := by
  intro entries
  induction entries with
  | nil => intro _ _ _ h _; cases h
  | cons p rest ih =>
      intro tbl name typeDef hmem hval
      cases p with
      | mk n d =>
          rw [parseUserTypes_cons]
          cases hv : validUserType n with
          | false => rfl
          | true =>
              cases hp : parseType tbl fuel d with
              | error e => rfl
              | ok s =>
                  rcases List.mem_cons.1 hmem with he | hm
                  · injection he with he1 he2
                    rw [he1] at hval
                    rw [hval] at hv
                    cases hv
                  · exact ih _ name typeDef hm hval

theorem parseType_refStr (userTypes : UserTypes) (fuel : Nat) (r : String) :
    parseType userTypes (fuel + 1) (.str ("$" ++ r)) =
      (do
        let u ← getUserType userTypes r
        pure (SchemaNode.userTypeRefParser u.1 u.2)) := by
  have hstep : parseType userTypes (fuel + 1) (.str ("$" ++ r)) =
      (do
        let schema ← newTypeSchema userTypes ("$" ++ r)
        if expectsConstraints schema then
          throw ("cannot parse \"" ++ ("$" ++ r) ++ "\": must be schema definition with constraints")
        else pure schema) := rfl
  rw [hstep, newTypeSchema_ref]
  cases hg : getUserType userTypes r with
  | error e => rfl
  | ok u => rfl

theorem parseUserTypes_forward_ref (fuel : Nat) (pre post : List (String × JSON))
    (name r : String) (hr : r ∉ pre.map Prod.fst) :
    (parseUserTypes fuel [] (pre ++ (name, .str ("$" ++ r)) :: post)).isOk = false := by
  rw [parseUserTypes_append]
  cases hpre : parseUserTypes fuel [] pre with
  | error e => rfl
  | ok tbl =>
      have hlook : List.lookup r tbl = none := by
        cases hl : List.lookup r tbl with
        | none => rfl
        | some u =>
            rcases parseUserTypes_lookup fuel pre [] tbl hpre r (by simp [hl]) with h1 | h1
            · simp [List.lookup] at h1
            · exact absurd h1 hr
      show (parseUserTypes fuel tbl ((name, .str ("$" ++ r)) :: post)).isOk = false
      clear hpre
      rw [parseUserTypes_cons]
      cases hv : validUserType name with
      | false => rfl
      | true =>
          cases fuel with
          | zero => rfl
          | succ n =>
              have hpt : parseType tbl (n + 1) (.str ("$" ++ r)) =
                  .error ("cannot find user-defined type \"" ++ r ++ "\"") := by
                rw [parseType_refStr, getUserType_notFound hlook]
                rfl
              rw [hpt]
              rfl

/-- C2: a named-type identifier violating the `[a-z][a-z0-9-]*` grammar makes
the whole compilation fail; the user-type table is built one entry at a time
in processing order, so a `$name` reference in a type definition resolves only
against the entries compiled strictly before it — a reference to a type not
among the earlier-processed names (whether declared later or not at all) is a
compile error, while a reference to an already-compiled entry resolves to its
wrapper. -/
theorem C2_user_type_declarations :
    (∀ (fuel : Nat) (entries : List (String × JSON)) (userTypes : UserTypes)
       (name : String) (typeDef : JSON),
        (name, typeDef) ∈ entries → validUserType name = false →
        (parseUserTypes fuel userTypes entries).isOk = false)
    ∧ (∀ (fuel : Nat) (pre post : List (String × JSON)) (name r : String),
        r ∉ pre.map Prod.fst →
        (parseUserTypes fuel [] (pre ++ (name, .str ("$" ++ r)) :: post)).isOk = false)
    ∧ (∀ (userTypes : UserTypes) (fuel : Nat) (r : String) (u : Bool × SchemaNode),
        List.lookup r userTypes = some u →
        parseType userTypes (fuel + 1) (.str ("$" ++ r)) =
          .ok (.userTypeRefParser u.1 u.2)) :=
  ⟨fun fuel entries tbl name typeDef hmem hval =>
     parseUserTypes_invalid_name fuel entries tbl name typeDef hmem hval,
   fun fuel pre post name r hr => parseUserTypes_forward_ref fuel pre post name r hr,
   fun tbl fuel r u h => by
     rw [parseType_refStr, getUserType_found h]
     rfl⟩

theorem C2_user_type_declarations_witness :
    (parseUserTypes 5 [] [("Bad", .str "string")]).isOk = false
    ∧ (parseUserTypes 5 [] [("b", .str "string"), ("a", .str ("$" ++ "x"))]).isOk = false
    ∧ parseType [("c", (false, .booleanSchema))] 5 (.str ("$" ++ "c")) =
        .ok (.userTypeRefParser false .booleanSchema) :=
  ⟨C2_user_type_declarations.1 5 [("Bad", .str "string")] [] "Bad" (.str "string")
     (List.mem_cons_self _ _) (by decide),
   C2_user_type_declarations.2.1 5 [("b", .str "string")] [] "a" "x" (by decide),
   C2_user_type_declarations.2.2 [("c", (false, .booleanSchema))] 4 "c"
     (false, .booleanSchema) rfl⟩

def c1raw : JSON :=
  .obj [("schema", .obj []),
        ("types", .obj [("a", .str "$b"), ("b", .str "string")])]

def c1goodOrder : List (String × JSON) := [("b", .str "string"), ("a", .str "$b")]

def c1compiled : StorageSchema :=
  (ParseSchemaWith 10 c1goodOrder c1raw).toOption.getD ⟨.anySchema, []⟩

/-- C1 counterexample: compiling the same schema bytes twice is not
deterministic.  The `"types"` table is decoded into a Go map and compiled by
ranging over it, and Go fixes no iteration order; for a schema whose type `a`
references type `b`, processing the table in source order fails (the reference
is not yet compiled) while the swapped order succeeds, so two compilations of
the same bytes can disagree. -/
theorem C1_determinism_counterexample :
    typesFields c1raw = [("a", JSON.str "$b"), ("b", JSON.str "string")]
    ∧ List.Perm [("a", JSON.str "$b"), ("b", JSON.str "string")]
        [("b", JSON.str "string"), ("a", JSON.str "$b")]
    ∧ (ParseSchemaWith 10 [("a", JSON.str "$b"), ("b", JSON.str "string")] c1raw).isOk = false
    ∧ (ParseSchemaWith 10 [("b", JSON.str "string"), ("a", JSON.str "$b")] c1raw).isOk = true :=
  ⟨rfl, List.Perm.swap _ _ _, rfl, rfl⟩

/-- C1 (amended): once the processing order of the user-defined types table is
fixed, compilation is a pure function of the schema bytes: two compilations of
the same bytes under the same order either both fail or both succeed, and on
success the compiled schemas accept and reject exactly the same documents. -/
theorem C1_fixed_order_deterministic (fuel : Nat) (typeOrder : List (String × JSON))
    (raw : JSON) (s1 s2 : StorageSchema)
    (h1 : ParseSchemaWith fuel typeOrder raw = .ok s1)
    (h2 : ParseSchemaWith fuel typeOrder raw = .ok s2) :
    ∀ (vfuel : Nat) (doc : JSON), s1.Validate vfuel doc = s2.Validate vfuel doc := by
  have hs : s1 = s2 := by
    have h3 := h1.symm.trans h2
    injection h3
  subst hs
  intro _ _
  rfl

theorem C1_fixed_order_deterministic_witness :
    StorageSchema.Validate 3 c1compiled (.obj []) =
      StorageSchema.Validate 3 c1compiled (.obj []) :=
  C1_fixed_order_deterministic 10 c1goodOrder c1raw c1compiled c1compiled rfl rfl 3 (.obj [])

theorem validate_array_prepend (fuel : Nat) (t : SchemaNode) (u : Bool)
    (pre : List JSON) (v : JSON) (post : List JSON) (e : ValidationError)
    (hpre : ∀ x ∈ pre, validate fuel t x = pure ())
    (hv : validate fuel t v = .error e) :
    validate (fuel + 1) (.arraySchema (some t) u) (.arr (pre ++ v :: post)) =
      .error ⟨.idx pre.length :: e.Path, e.Err⟩ := by
  have hloop : ((pre ++ v :: post).enum.forM (fun iv =>
      (validate fuel t iv.2).mapError (prependPath (.idx iv.1)))) =
        .error ⟨.idx pre.length :: e.Path, e.Err⟩ := by
    have henum : (pre ++ v :: post).enum =
        pre.enumFrom 0 ++ (0 + pre.length, v) :: post.enumFrom (0 + pre.length + 1) := by
      rw [List.enum, List.enumFrom_append, List.enumFrom]
    rw [henum]
    apply forM_eq_error
    · intro x hx
      have hx2 := snd_mem_of_mem_enumFrom hx
      simp [hpre x.2 hx2, exceptMapErrorPure]
    · simp [hv, Except.mapError, prependPath]
  simp only [validate, hloop]
  rfl

theorem validate_map_entry_prepend (fuel : Nat) (es : List (String × SchemaNode))
    (combs : List (List String)) (k : String) (v : JSON) (sch : SchemaNode)
    (e : ValidationError)
    (hkey : validSubkey k = true)
    (hlook : List.lookup k es = some sch)
    (hmiss : requiredMissing (fun q => (List.lookup q [(k, v)]).isSome) combs = false)
    (hval : validate fuel sch v = .error e) :
    validate (fuel + 1) (.mapSchema (some es) none none combs) (.obj [(k, v)]) =
      .error ⟨.key k :: e.Path, e.Err⟩ := by
  have h1 : validMapKeys [(k, v)] = pure () :=
    forM_eq_pure (by
      intro kv hkv
      have : kv = (k, v) := by simpa using hkv
      subst this
      simp [hkey])
  have h2 : [(k, v)].forM (fun kv =>
      (if (List.lookup kv.1 es).isSome then pure ()
       else throw (validationErrorFrom
         ("map contains unexpected key \"" ++ kv.1 ++ "\"")) :
        Except ValidationError Unit)) = pure () :=
    forM_eq_pure (by
      intro kv hkv
      have : kv = (k, v) := by simpa using hkv
      subst this
      simp [hlook])
  simp only [validate, h1, exceptMapErrorPure, pure_bind, h2, hmiss, if_false]
  simp only [List.forM, hlook, hval, Except.mapError, prependPath]
  rfl

def c8raw : JSON :=
  .obj [("schema", .obj [("a", .obj [("type", .str "array"), ("values", .str "int")])])]

def c8compiled : StorageSchema :=
  (ParseSchema 10 c8raw).toOption.getD ⟨.anySchema, []⟩

/-- C8: composite nodes prepend their own locator (entry key, array index) to
a propagating validation error's path; an empty path renders as the distinct
top-level message, a non-empty path renders as dot-joined keys with bracketed
numeric indices (a.b[2]); and the schema with entry "a" an int array, applied
to a document whose a[1] is a string, yields an error with path a, 1 rendering
as a[1]. -/
theorem C8_error_paths :
    (∀ msg : String,
        ValidationError.render ⟨[], msg⟩ = "cannot accept top level element: " ++ msg)
    ∧ (∀ msg : String,
        ValidationError.render ⟨[.key "a", .key "b", .idx 2], msg⟩ =
          "cannot accept element in \"a.b[2]\": " ++ msg)
    ∧ (∀ (fuel : Nat) (t : SchemaNode) (u : Bool) (pre : List JSON) (v : JSON)
         (post : List JSON) (e : ValidationError),
        (∀ x ∈ pre, validate fuel t x = pure ()) →
        validate fuel t v = .error e →
        validate (fuel + 1) (.arraySchema (some t) u) (.arr (pre ++ v :: post)) =
          .error ⟨.idx pre.length :: e.Path, e.Err⟩)
    ∧ (∀ (fuel : Nat) (es : List (String × SchemaNode)) (combs : List (List String))
         (k : String) (v : JSON) (sch : SchemaNode) (e : ValidationError),
        validSubkey k = true →
        List.lookup k es = some sch →
        requiredMissing (fun q => (List.lookup q [(k, v)]).isSome) combs = false →
        validate fuel sch v = .error e →
        validate (fuel + 1) (.mapSchema (some es) none none combs) (.obj [(k, v)]) =
          .error ⟨.key k :: e.Path, e.Err⟩)
    ∧ (ParseSchema 10 c8raw).isOk = true
    ∧ c8compiled.Validate 5 (.obj [("a", .arr [.num 1, .str "x"])]) =
        .error ⟨[.key "a", .idx 1], "expected int type but got string"⟩
    ∧ ValidationError.render ⟨[.key "a", .idx 1], "expected int type but got string"⟩ =
        "cannot accept element in \"a[1]\": expected int type but got string" :=
  ⟨fun _ => rfl, fun _ => rfl, validate_array_prepend, validate_map_entry_prepend,
   rfl, rfl, rfl⟩

theorem C8_error_paths_witness :
    validate 2 (.arraySchema (some (.intSchema none none [])) false)
        (.arr ([.num 1] ++ JSON.str "x" :: []))
      = .error ⟨[.idx 1], "expected int type but got string"⟩
    ∧ validate 2 (.mapSchema (some [("a", .stringSchema none [])]) none none [])
        (.obj [("a", .num 3)])
      = .error ⟨[.key "a"], "expected string type but got number"⟩ :=
  ⟨C8_error_paths.2.2.1 1 (.intSchema none none []) false [.num 1] (.str "x") []
     ⟨[], "expected int type but got string"⟩
     (fun x hx => by
        have hx2 : x = JSON.num 1 := by simpa using hx
        subst hx2
        rfl)
     rfl,
   C8_error_paths.2.2.2.1 1 [("a", .stringSchema none [])] [] "a" (.num 3)
     (.stringSchema none []) ⟨[], "expected string type but got number"⟩
     rfl rfl rfl rfl⟩

theorem validate_array_unique_eq (fuel : Nat) (t : SchemaNode) (xs : List JSON)
    (hall : ∀ x ∈ xs, validate fuel t x = pure ()) :
    validate (fuel + 1) (.arraySchema (some t) true) (.arr xs) =
      if findDup [] (xs.map encode) then
        .error ⟨[], "cannot accept duplicate values for array with \"unique\" constraint"⟩
      else pure () := by
  have hloop : xs.enum.forM (fun iv =>
      (validate fuel t iv.2).mapError (prependPath (.idx iv.1))) = pure () :=
    forM_eq_pure (fun iv hiv => by
      simp [hall iv.2 (snd_mem_of_mem_enumFrom hiv), exceptMapErrorPure])
  simp only [validate, hloop, pure_bind]
  cases findDup [] (xs.map encode) <;> rfl

theorem findDup_encode_iff (xs : List JSON) :
    findDup [] (xs.map encode) = true ↔
      ∃ i j : Fin xs.length, i.val < j.val ∧ encode (xs.get i) = encode (xs.get j) := by
  rw [findDup_nil_iff, not_nodup_iff_exists_get]
  constructor
  · rintro ⟨i, j, hij, hget⟩
    refine ⟨⟨i.val, by simpa using i.isLt⟩, ⟨j.val, by simpa using j.isLt⟩, hij, ?_⟩
    have hi : (xs.map encode).get i = encode (xs.get ⟨i.val, by simpa using i.isLt⟩) := by
      simp [List.get_eq_getElem, List.getElem_map]
    have hj : (xs.map encode).get j = encode (xs.get ⟨j.val, by simpa using j.isLt⟩) := by
      simp [List.get_eq_getElem, List.getElem_map]
    rw [← hi, ← hj, hget]
  · rintro ⟨i, j, hij, henc⟩
    refine ⟨⟨i.val, by simp⟩, ⟨j.val, by simp⟩, hij, ?_⟩
    simp only [List.get_eq_getElem, List.getElem_map]
    simpa [List.get_eq_getElem] using henc

theorem validate_array_unique_iff (fuel : Nat) (t : SchemaNode) (xs : List JSON)
    (hall : ∀ x ∈ xs, validate fuel t x = pure ()) :
    (validate (fuel + 1) (.arraySchema (some t) true) (.arr xs) =
        .error ⟨[], "cannot accept duplicate values for array with \"unique\" constraint"⟩)
      ↔ ∃ i j : Fin xs.length, i.val < j.val ∧ encode (xs.get i) = encode (xs.get j) := by
  rw [validate_array_unique_eq fuel t xs hall, ← findDup_encode_iff]
  cases findDup [] (xs.map encode) with
  | true => exact ⟨fun _ => rfl, fun _ => rfl⟩
  | false => exact ⟨fun h => Except.noConfusion h, fun h => Bool.noConfusion h⟩

theorem findDup_double (s : String) : findDup [] [s, s] = true := by
  simp [findDup]

/-- C5: for a unique array whose elements all validate against the element
type, Validate fails with the duplicate-values error exactly when two elements
have byte-identical encoded forms; without such a pair the document is
accepted. In particular [1,1] is rejected, [1,"1"] is accepted (different
encodings), and two byte-identical objects are rejected. -/
theorem C5_unique_byte_identity :
    (∀ (fuel : Nat) (t : SchemaNode) (xs : List JSON),
        (∀ x ∈ xs, validate fuel t x = pure ()) →
        ((validate (fuel + 1) (.arraySchema (some t) true) (.arr xs) =
            .error ⟨[], "cannot accept duplicate values for array with \"unique\" constraint"⟩)
          ↔ ∃ i j : Fin xs.length, i.val < j.val ∧ encode (xs.get i) = encode (xs.get j)))
    ∧ (∀ (fuel : Nat) (t : SchemaNode) (xs : List JSON),
        (∀ x ∈ xs, validate fuel t x = pure ()) →
        (¬∃ i j : Fin xs.length, i.val < j.val ∧ encode (xs.get i) = encode (xs.get j)) →
        validate (fuel + 1) (.arraySchema (some t) true) (.arr xs) = pure ())
    ∧ validate 2 (.arraySchema (some .anySchema) true) (.arr [.num 1, .num 1]) =
        .error ⟨[], "cannot accept duplicate values for array with \"unique\" constraint"⟩
    ∧ validate 2 (.arraySchema (some .anySchema) true) (.arr [.num 1, .str "1"]) = pure ()
    ∧ validate 2 (.arraySchema (some .anySchema) true)
        (.arr [.obj [("a", .num 1)], .obj [("a", .num 1)]]) =
        .error ⟨[], "cannot accept duplicate values for array with \"unique\" constraint"⟩ :=
  ⟨validate_array_unique_iff,
   fun fuel t xs hall hno => by
     rw [validate_array_unique_eq fuel t xs hall]
     rw [if_neg (fun hfd => hno ((findDup_encode_iff xs).1 hfd))],
   by
     rw [validate_array_unique_eq 1 .anySchema _ (by
       intro x hx
       have hx2 : x = JSON.num 1 := by
         rcases List.mem_cons.1 hx with h | h
         · exact h
         · simpa using h
       subst hx2
       rfl)]
     rw [if_pos (by
       rw [List.map_cons, List.map_cons, List.map_nil]
       exact findDup_double _)],
   by
     rw [validate_array_unique_eq 1 .anySchema _ (by
       intro x hx
       rcases List.mem_cons.1 hx with h | h
       · subst h; rfl
       · have hx2 : x = JSON.str "1" := by simpa using h
         subst hx2
         rfl)]
     rw [if_neg (by
       simp only [List.map_cons, List.map_nil, encode]
       decide)],
   by
     rw [validate_array_unique_eq 1 .anySchema _ (by
       intro x hx
       have hx2 : x = JSON.obj [("a", .num 1)] := by
         rcases List.mem_cons.1 hx with h | h
         · exact h
         · simpa using h
       subst hx2
       rfl)]
     rw [if_pos (by
       rw [List.map_cons, List.map_cons, List.map_nil]
       exact findDup_double _)]⟩

theorem C5_unique_byte_identity_witness :
    validate 2 (.arraySchema (some .anySchema) true) (.arr [.num 1, .num 1]) =
      .error ⟨[], "cannot accept duplicate values for array with \"unique\" constraint"⟩ :=
  (C5_unique_byte_identity.1 1 .anySchema [.num 1, .num 1] (by
      intro x hx
      have hx2 : x = JSON.num 1 := by
        rcases List.mem_cons.1 hx with h | h
        · exact h
        · simpa using h
      subst hx2
      rfl)).2
    ⟨⟨0, by decide⟩, ⟨1, by decide⟩, by decide, rfl⟩
